import Mathlib

/-!
Verification of the FLUJO workflow execution engine core against its
natural-language specification.

The definitions below are a shallow embedding of the TypeScript sources:

* `src/backend/execution/flow/temp_pocket.ts` — `BaseNode` (successor map,
  `addSuccessor`, `clone`), `Flow` (`orchestrate`, `post`, `execCore`);
* `src/backend/execution/flow/FlowConverter.ts.backup` — `FlowConverter.convert`;
* `src/backend/execution/flow/FlowExecutor.ts.backup` — `FlowExecutor.executeFlow`;
* the `ProcessNode` implementation (`prep`, `execCore`, `post`);
* the `FinishNode` implementation (`prep`, `execCore`, `post`).

External collaborators (prompt renderer, tool handler, model handler, MCP
service) are not part of the repository core; functions here take them as
parameters, mirroring the collaborator interfaces of the specification.
JavaScript mutation of `sharedState` is embedded as explicit state passing,
thrown exceptions as `Except`, and the unbounded `while` loop of
`Flow.orchestrate` and the BFS of its resume logic take a fuel argument.
Message contents are embedded as strings (the only content form the engine
itself constructs or inspects).
-/

namespace Flujo

/-! ### String helpers

JavaScript `String.prototype.includes` and `String.prototype.endsWith`,
modelled on character lists. -/

/-- Is `pat` an initial segment of `l`? (helper for the substring test). -/
def leadsList (pat l : List Char) : Bool :=
  match pat, l with
  | [], _ => true
  | _ :: _, [] => false
  | a :: as_, b :: bs => a = b && leadsList as_ bs

/-- Does `l` contain `pat` as a contiguous sublist? (JS `includes`). -/
def containsList (pat l : List Char) : Bool :=
  match l with
  | [] => leadsList pat []
  | _ :: rest => leadsList pat l || containsList pat rest

/-- JS `s.includes(pat)`. -/
def strIncludes (s pat : String) : Bool :=
  containsList pat.toList s.toList

/-- JS `s.endsWith(pat)`. -/
def strEndsWith (s pat : String) : Bool :=
  leadsList pat.toList.reverse s.toList.reverse

/-! ### Data model: messages, tracker entries, shared state -/

/-- Role tag of a chat message (OpenAI `ChatCompletionMessageParam.role`). -/
inductive Role where
  | system
  | user
  | assistant
  | tool
deriving DecidableEq, Repr

/-- A chat message; content embedded as a string. -/
structure ChatMessage where
  role : Role
  content : String
deriving DecidableEq, Repr

/-- One entry of `sharedState.trackingInfo.nodeExecutionTracker`.
`ProcessNode.post` fills every field; `FinishNode.post` only the first
three.  The wall-clock `timestamp` field is omitted (real time). -/
structure TrackerEntry where
  nodeType : String
  nodeId : String
  nodeName : String
  modelDisplayName : Option String := none
  modelTechnicalName : Option String := none
  allowedTools : Option String := none
deriving DecidableEq, Repr

/-- `sharedState.lastResponse`: either the generated text or the structured
failure object stored by `ProcessNode.post` on a recoverable failure. -/
inductive LastResponse where
  | text (s : String)
  | failure (error : Option String) (errorDetailsMessage : Option String)
deriving DecidableEq, Repr

/-- The mutable shared execution context threaded through all nodes.
`nodeExecutionTracker` stands for `trackingInfo.nodeExecutionTracker`;
`mcpContextTools` for `mcpContext?.availableTools`. -/
structure SharedState where
  messages : List ChatMessage
  lastResponse : Option LastResponse := none
  currentNodeId : Option String := none
  nodeExecutionTracker : List TrackerEntry := []
  flowId : Option String := none
  mcpContextTools : Option (List String) := none
deriving DecidableEq, Repr

/-- JS truthiness of an optional string (absent and `""` are falsy). -/
def truthyStr (s : Option String) : Bool :=
  match s with
  | none => false
  | some t => !(t = "")

/-- JS `a || b` on an optional string: `b` when `a` is absent or empty. -/
def jsOrStr (a : Option String) (b : String) : String :=
  if truthyStr a then a.getD "" else b

/-! ### Reserved action tokens -/

/-- `DEFAULT_ACTION` from `temp_pocket.ts`. -/
def DEFAULT_ACTION : String := "default"

/-- Modelled from the spec: the reserved "suspend here" action token
(`STAY_ON_NODE_ACTION`), declared in the repository's `types.ts` which is
not among the provided sources; only its distinguished identity matters. -/
def STAY_ON_NODE_ACTION : String := "stay_on_node"

/-- Modelled from the spec: the reserved "no successor — final response"
action token (`FINAL_RESPONSE_ACTION`) from the missing `types.ts`. -/
def FINAL_RESPONSE_ACTION : String := "final_response"

/-! ### Successor registration (`BaseNode.addSuccessor`)

A JS `Map` in insertion order is embedded as an association list; `Map.set`
on a fresh key appends at the end. -/

/-- `Map.has` on an association list. -/
def hasAction (succ : List (String × α)) (action : String) : Bool :=
  succ.any (fun p => p.1 = action)

/-- `Map.get` on an association list. -/
def getAction (succ : List (String × α)) (action : String) : Option α :=
  (succ.find? (fun p => p.1 = action)).map (fun p => p.2)

/-- `BaseNode.addSuccessor`: throws if the action key is already present,
otherwise inserts the new entry. -/
def addSuccessor (succ : List (String × α)) (newSuccessor : α)
    (action : String := DEFAULT_ACTION) : Except String (List (String × α)) :=
  if hasAction succ action then
    Except.error ("Action " ++ action ++ " already exists")
  else
    Except.ok (succ ++ [(action, newSuccessor)])

/-- A node viewed through its successor map, for stating that a thrown
duplicate registration leaves the map unmutated (the throw happens before
`Map.set`). -/
structure SuccNode (α : Type) where
  successors : List (String × α)
deriving DecidableEq, Repr

/-- Effect of `addSuccessor` on the owning node: on a throw the node object
is untouched and the error propagates. -/
def addSuccessorNode (nd : SuccNode α) (newSuccessor : α) (action : String) :
    SuccNode α × Option String :=
  match addSuccessor nd.successors newSuccessor action with
  | Except.error e => (nd, some e)
  | Except.ok l => (⟨l⟩, none)

/-! ### Flow as a node (`Flow.post`, `Flow.execCore`) -/

/-- `Flow.post`: ignores all inputs and returns the default action. -/
def flowPost (prepResult : α) (execResult : β) (sharedState : SharedState)
    (nodeParams : Option γ) : String :=
  DEFAULT_ACTION

/-- `Flow.execCore`: direct execution of a Flow always throws. -/
def flowExecCore (prepResult : α) : Except String β :=
  Except.error "Flow node does not support direct execution"

/-! ### Node parameters and collaborator interfaces -/

/-- `node_params.properties` fields read by the concrete nodes. -/
structure NodeProps where
  boundModel : Option String := none
  name : Option String := none
  allowedTools : Option (List String) := none
  mcpNodes : List String := []
  excludeModelPrompt : Bool := false
  excludeStartNodePrompt : Bool := false
deriving DecidableEq, Repr

/-- `node_params` as set by `FlowConverter.createNode`:
`{id, label, type, properties}`. -/
structure NodeParams where
  id : String
  label : Option String := none
  nodeType : String
  properties : NodeProps := {}
deriving DecidableEq, Repr

/-- Options handed to the prompt renderer by `ProcessNode.prep`
(`renderMode`/`includeConversationHistory` are fixed there). -/
structure RenderOpts where
  excludeModelPrompt : Bool
  excludeStartNodePrompt : Bool
deriving DecidableEq, Repr

/-- Provider error value (`modelResult.error`) returned by the external
`ModelHandler.callModel` collaborator on failure. -/
structure ModelErrorInfo where
  message : String
  errType : String
  code : Option String := none
  modelId : Option String := none
  detailsParam : Option String := none
  detailsStatus : Option Int := none
deriving DecidableEq, Repr

/-- Success value (`modelResult.value`) of `ModelHandler.callModel`. -/
structure ModelSuccess where
  content : Option String := none
  messages : List ChatMessage := []
  toolCalls : List String := []
deriving DecidableEq, Repr

/-- Input record of `ModelHandler.callModel` as assembled by
`ProcessNode.execCore` (`iteration: 1`, `maxIterations: 30`). -/
structure ModelCallInput where
  modelId : String
  prompt : String
  messages : List ChatMessage
  tools : Option (List String)
  iteration : Nat
  maxIterations : Nat
  nodeName : String
deriving DecidableEq, Repr

/-- The external collaborators consumed by the engine, as pure functions:
prompt rendering, MCP tool resolution, provider-facing tool preparation,
model invocation, and the `FEATURES.ENABLE_EXECUTION_TRACKER` flag gating
the finish-node tracker entry. -/
structure Collab where
  renderPrompt : String → String → RenderOpts → String
  processMCPNodes : List String → Except String (List String)
  prepareTools : List String → Except String (List String)
  callModel : ModelCallInput → Except ModelErrorInfo ModelSuccess
  enableTracker : Bool

/-! ### ProcessNode -/

/-- `ProcessNodePrepResult` (fields used by `execCore` and `post`).
`modelDisplayName` is read by `post` but never assigned by `prep`, hence it
defaults to absent. -/
structure ProcessNodePrepResult where
  nodeId : String
  currentPrompt : String
  boundModel : String
  availableTools : List String
  messages : List ChatMessage
  modelDisplayName : Option String := none
deriving DecidableEq, Repr

/-- `ProcessNodeExecResult`: `success` plus the optional payload / error
fields (the failure result constructed in `execCore` leaves `content` and
`messages` absent). -/
structure ProcessNodeExecResult where
  success : Bool
  content : Option String := none
  messages : Option (List ChatMessage) := none
  toolCalls : List String := []
  error : Option String := none
  errorDetailsMessage : Option String := none
deriving DecidableEq, Repr

/-- The aborting error thrown by `ProcessNode.execCore` when the model
invocation collaborator fails: the wrapped message plus the provider's
error details attached to the error object. -/
structure ModelAbortError where
  message : String
  isModelError : Bool
  detailsMessage : String
  detailsType : String
  detailsCode : Option String
  detailsModelId : Option String
  detailsParam : Option String
  detailsStatus : Option Int
deriving DecidableEq, Repr

/-- `ProcessNode.prep`: validates ids and bound model, renders the prompt,
resolves tools (shared-state context first, else the MCP nodes of the
node's properties), and reorders the history so one fresh system message
leads followed by the non-system messages in order.  Throws (`Except.error`)
on missing ids/model or failed MCP processing. -/
def processPrep (c : Collab) (sharedState : SharedState)
    (node_params : Option NodeParams) : Except String ProcessNodePrepResult :=
  let nodeId := node_params.map (fun p => p.id)
  let flowId := sharedState.flowId
  let boundModel := node_params.bind (fun p => p.properties.boundModel)
  let excludeModelPrompt := (node_params.map (fun p => p.properties.excludeModelPrompt)).getD false
  let excludeStartNodePrompt := (node_params.map (fun p => p.properties.excludeStartNodePrompt)).getD false
  if !(truthyStr nodeId && truthyStr flowId) then
    Except.error "Process node requires node ID and flow ID"
  else if !(truthyStr boundModel) then
    Except.error "Process node requires a bound model"
  else
    let completePrompt := c.renderPrompt (flowId.getD "") (nodeId.getD "")
      ⟨excludeModelPrompt, excludeStartNodePrompt⟩
    let toolsRes : Except String (List String) :=
      match sharedState.mcpContextTools with
      | some ts =>
        if ts.length > 0 then Except.ok ts
        else
          let mcpNodes := (node_params.map (fun p => p.properties.mcpNodes)).getD []
          if mcpNodes.length > 0 then
            match c.processMCPNodes mcpNodes with
            | Except.error e => Except.error ("Failed to process MCP nodes: " ++ e)
            | Except.ok ats => Except.ok ats
          else Except.ok []
      | none =>
        let mcpNodes := (node_params.map (fun p => p.properties.mcpNodes)).getD []
        if mcpNodes.length > 0 then
          match c.processMCPNodes mcpNodes with
          | Except.error e => Except.error ("Failed to process MCP nodes: " ++ e)
          | Except.ok ats => Except.ok ats
        else Except.ok []
    match toolsRes with
    | Except.error e => Except.error e
    | Except.ok availableTools =>
      let nonSystemMessages := sharedState.messages.filter (fun m => !(m.role = Role.system))
      let systemMessage : ChatMessage := ⟨Role.system, completePrompt⟩
      Except.ok
        { nodeId := nodeId.getD ""
          currentPrompt := completePrompt
          boundModel := boundModel.getD ""
          availableTools := availableTools
          messages := systemMessage :: nonSystemMessages }

/-- `ProcessNode.execCore`: prepares tools, invokes the model collaborator,
and on a provider failure wraps it as an aborting `ModelAbortError`
(rethrown past the catch) carrying the provider's message, type and code.
A tool-preparation failure is an ordinary error caught by the surrounding
`try`, so it becomes a recoverable `success: false` result. -/
def processExecCore (c : Collab) (prepResult : ProcessNodePrepResult)
    (node_params : Option NodeParams) :
    Except ModelAbortError ProcessNodeExecResult :=
  let toolsRes : Except String (Option (List String)) :=
    if prepResult.availableTools.length > 0 then
      match c.prepareTools prepResult.availableTools with
      | Except.error e => Except.error ("Failed to prepare tools: " ++ e)
      | Except.ok ts => Except.ok (some ts)
    else Except.ok none
  match toolsRes with
  | Except.error e =>
    Except.ok { success := false, error := some e, errorDetailsMessage := some e }
  | Except.ok tools =>
    let nodeName :=
      jsOrStr (node_params.bind (fun p => p.label))
        (jsOrStr (node_params.bind (fun p => p.properties.name)) "Process Node")
    match c.callModel
      { modelId := prepResult.boundModel
        prompt := prepResult.currentPrompt
        messages := prepResult.messages
        tools := tools
        iteration := 1
        maxIterations := 30
        nodeName := nodeName } with
    | Except.error e =>
      Except.error
        { message := "Model execution failed: " ++ e.message
          isModelError := true
          detailsMessage := e.message
          detailsType := e.errType
          detailsCode := e.code
          detailsModelId := if e.errType = "model" then e.modelId else none
          detailsParam := e.detailsParam
          detailsStatus := e.detailsStatus }
    | Except.ok v =>
      Except.ok
        { success := true
          content := some (v.content.getD "")
          messages := some v.messages
          toolCalls := v.toolCalls }

/-- The MCP-edge filter of `ProcessNode.post`: an action key is dropped
when it contains `-mcpEdge`, ends with `mcpEdge`, or contains `-mcp`. -/
def isMcpAction (action : String) : Bool :=
  strIncludes action "-mcpEdge" || strEndsWith action "mcpEdge" || strIncludes action "-mcp"

/-- `ProcessNode.post`: stores the response or the structured failure as
`lastResponse`, replaces `messages` only when the exec result carries a
non-empty message list, appends a `ProcessNode` tracker entry, then selects
the first non-MCP action key of the successor map (insertion order), or
`"default"` when none remains.  `succActions` is the key list of
`this.successors` in insertion order. -/
def processPost (prepResult : ProcessNodePrepResult)
    (execResult : ProcessNodeExecResult) (sharedState : SharedState)
    (node_params : Option NodeParams) (succActions : List String) :
    String × SharedState :=
  let failureResponse :=
    LastResponse.failure execResult.error execResult.errorDetailsMessage
  let s1 :=
    if !execResult.success then
      { sharedState with lastResponse := some failureResponse }
    else if truthyStr execResult.content then
      { sharedState with lastResponse := some (LastResponse.text (execResult.content.getD "")) }
    else sharedState
  let s2 :=
    match execResult.messages with
    | some msgs => if msgs.length > 0 then { s1 with messages := msgs } else s1
    | none => s1
  let entry : TrackerEntry :=
    { nodeType := "ProcessNode"
      nodeId := jsOrStr (node_params.map (fun p => p.id)) "unknown"
      nodeName := jsOrStr (node_params.bind (fun p => p.properties.name)) "Process Node"
      modelDisplayName := some (jsOrStr prepResult.modelDisplayName "Unknown Model")
      modelTechnicalName := some (jsOrStr (some prepResult.boundModel) "unknown")
      allowedTools := (node_params.bind (fun p => p.properties.allowedTools)).map
        (fun ts => String.intercalate ", " ts) }
  let s3 := { s2 with nodeExecutionTracker := s2.nodeExecutionTracker ++ [entry] }
  let actions := succActions.filter (fun a => !isMcpAction a)
  let action :=
    match actions with
    | a :: _ => a
    | [] => "default"
  (action, s3)

/-! ### FinishNode -/

/-- `FinishNodePrepResult`: node id and a snapshot of the messages. -/
structure FinishNodePrepResult where
  nodeId : String
  messages : List ChatMessage
deriving DecidableEq, Repr

/-- `FinishNode.prep`. -/
def finishPrep (sharedState : SharedState) (node_params : Option NodeParams) :
    FinishNodePrepResult :=
  { nodeId := jsOrStr (node_params.map (fun p => p.id)) ""
    messages := sharedState.messages }

/-- `FinishNode.execCore`: a no-op success. -/
def finishExecCore : Bool := true

/-- `FinishNode.post`: optionally appends a tracker entry (gated by
`FEATURES.ENABLE_EXECUTION_TRACKER`), stores the content of a trailing
assistant message as `lastResponse`, and returns the first successor
action, else the reserved final-response token. -/
def finishPost (c : Collab) (prepResult : FinishNodePrepResult)
    (sharedState : SharedState) (node_params : Option NodeParams)
    (succActions : List String) : String × SharedState :=
  let s1 :=
    if c.enableTracker then
      { sharedState with nodeExecutionTracker := sharedState.nodeExecutionTracker ++
          [{ nodeType := "FinishNode"
             nodeId := jsOrStr (node_params.map (fun p => p.id)) "unknown"
             nodeName := jsOrStr (node_params.bind (fun p => p.properties.name)) "Finish Node" }] }
    else sharedState
  let s2 :=
    match prepResult.messages.getLast? with
    | some lastMessage =>
      if lastMessage.role = Role.assistant && !(lastMessage.content = "") then
        { s1 with lastResponse := some (LastResponse.text lastMessage.content) }
      else s1
    | none => s1
  let action :=
    match succActions with
    | a :: _ => a
    | [] => FINAL_RESPONSE_ACTION
  (action, s2)

/-! ### Orchestration (`Flow.orchestrate`)

Traversal instances are clones of the template nodes and a node's identity
is `node_params.id`, so the state of the traversal is captured by the
current node id; `succOf` gives each node's successor map as an ordered
`action → successor id` list, and `run` is `currentNode.run(sharedState)`
seen as an action plus the mutated state, or a thrown error. -/

/-- Errors propagating uncaught out of a node's `run`: a plain thrown
message (e.g. from `prep`) or the aborting model error of
`ProcessNode.execCore`. -/
inductive RunError where
  | thrown (message : String)
  | modelAbort (e : ModelAbortError)
deriving DecidableEq, Repr

/-- How one orchestration call ends. -/
inductive OrchOutcome where
  | completed
  | paused
  | aborted (e : RunError)
  | outOfFuel
deriving DecidableEq, Repr

/-- Result of `Flow.orchestrate`: the shared state as the loop left it,
the node ids entered in order, and how the loop ended. -/
structure OrchResult where
  state : SharedState
  visited : List String
  outcome : OrchOutcome
deriving DecidableEq, Repr

/-- The BFS of `Flow.orchestrate`'s resume path: queue seeded with the
start node, successors enqueued in map order and marked visited as they
are enqueued (the start itself is never marked). -/
def bfsFind (succOf : String → List (String × String)) (target : String) :
    Nat → List String → List String → Option String
  | 0, _, _ => none
  | _ + 1, [], _ => none
  | fuel + 1, n :: queue, visited =>
    if n = target then some n
    else
      let step := (succOf n).foldl
        (fun (acc : List String × List String) p =>
          if acc.2.contains p.2 then acc
          else (acc.1 ++ [p.2], acc.2 ++ [p.2]))
        (queue, visited)
      bfsFind succOf target fuel step.1 step.2

/-- The `while (currentNode)` loop of `Flow.orchestrate`: run the current
node; on the suspend token store the node id in `currentNodeId` and return
at once; otherwise follow the successor for the returned action, and when
none matches complete and clear `currentNodeId`.  A thrown error ends the
loop immediately with the state as it was when the node was entered (nodes
mutate state only in `post`, which either completes or throws first). -/
def orchLoop (succOf : String → List (String × String))
    (run : String → SharedState → Except RunError (String × SharedState)) :
    Nat → String → SharedState → List String → OrchResult
  | 0, _, s, visited => ⟨s, visited, OrchOutcome.outOfFuel⟩
  | fuel + 1, cur, s, visited =>
    match run cur s with
    | Except.error e => ⟨s, visited ++ [cur], OrchOutcome.aborted e⟩
    | Except.ok (action, s1) =>
      if action = STAY_ON_NODE_ACTION then
        ⟨{ s1 with currentNodeId := some cur }, visited ++ [cur], OrchOutcome.paused⟩
      else
        match getAction (succOf cur) action with
        | some nxt => orchLoop succOf run fuel nxt s1 (visited ++ [cur])
        | none =>
          ⟨{ s1 with currentNodeId := none }, visited ++ [cur], OrchOutcome.completed⟩

/-- `Flow.orchestrate`: if `currentNodeId` is set, locate it by BFS from
the start node and resume there (falling back to the start when the search
fails); otherwise begin at the start node. -/
def orchestrate (succOf : String → List (String × String))
    (run : String → SharedState → Except RunError (String × SharedState))
    (start : String) (fuel bfsFuel : Nat) (s : SharedState) : OrchResult :=
  let entry :=
    match s.currentNodeId with
    | some nid =>
      match bfsFind succOf nid bfsFuel [start] [] with
      | some found => found
      | none => start
    | none => start
  orchLoop succOf run fuel entry s []

/-! ### Wired graphs and the run facade -/

/-- The concrete node kinds whose implementations are among the sources. -/
inductive NodeKind where
  | process
  | finish
deriving DecidableEq, Repr

/-- One wired node of a built graph: its kind, its `node_params`, and its
successor map in insertion order (action key → successor node id). -/
structure GraphNode where
  kind : NodeKind
  params : NodeParams
  succ : List (String × String)
deriving DecidableEq, Repr

/-- A built flow: the start node id plus the id-indexed node table. -/
structure Graph where
  start : String
  nodes : List (String × GraphNode)
deriving DecidableEq, Repr

/-- Successor maps of a graph, node id → ordered successor entries. -/
def Graph.succOf (g : Graph) (nid : String) : List (String × String) :=
  ((getAction g.nodes nid).map (fun n => n.succ)).getD []

/-- `node.run(sharedState)` for a wired node: the prep/exec/post lifecycle
of the node's kind, with thrown errors propagating. -/
def runGraphNode (c : Collab) (g : Graph) (nid : String) (s : SharedState) :
    Except RunError (String × SharedState) :=
  match getAction g.nodes nid with
  | none => Except.error (RunError.thrown ("Successor " ++ nid ++ " not found"))
  | some gn =>
    match gn.kind with
    | NodeKind.process =>
      match processPrep c s (some gn.params) with
      | Except.error e => Except.error (RunError.thrown e)
      | Except.ok pr =>
        match processExecCore c pr (some gn.params) with
        | Except.error e => Except.error (RunError.modelAbort e)
        | Except.ok er =>
          Except.ok (processPost pr er s (some gn.params) (gn.succ.map (fun p => p.1)))
    | NodeKind.finish =>
      let pr := finishPrep s (some gn.params)
      let _ := finishExecCore
      Except.ok (finishPost c pr s (some gn.params) (gn.succ.map (fun p => p.1)))

/-- The value of `result.result` in `FlowExecutor.executeFlow`:
`sharedState.lastResponse || "Flow execution completed"` with JS
truthiness (an empty-string response falls back). -/
def resultOf (s : SharedState) : LastResponse :=
  match s.lastResponse with
  | some (LastResponse.text t) =>
    if t = "" then LastResponse.text "Flow execution completed" else LastResponse.text t
  | some r => r
  | none => LastResponse.text "Flow execution completed"

/-- The record `FlowExecutor.executeFlow` resolves with. -/
structure FlowRunResult where
  result : LastResponse
  messages : List ChatMessage
  nodeExecutionTracker : List TrackerEntry
deriving DecidableEq, Repr

/-- Outcome of the run facade: the accumulated result, a rethrown error
(the run call rejects), or fuel exhaustion (an artifact of the embedding,
impossible for terminating flows given enough fuel). -/
inductive FlowRunOutcome where
  | ok (r : FlowRunResult)
  | raised (e : RunError)
  | fuelOut
deriving DecidableEq, Repr

/-- `FlowExecutor.executeFlow` after graph construction: drive
`Flow.run` (whose `prep` is a no-op and whose `post` returns the default
action, both without touching the state) — hence `orchestrate` — and
assemble `{result, messages, nodeExecutionTracker}` from the final state,
rethrowing any error raised during execution. -/
def executeFlow (c : Collab) (g : Graph) (fuel bfsFuel : Nat)
    (s0 : SharedState) : FlowRunOutcome :=
  let r := orchestrate g.succOf (runGraphNode c g) g.start fuel bfsFuel s0
  match r.outcome with
  | OrchOutcome.aborted e => FlowRunOutcome.raised e
  | OrchOutcome.outOfFuel => FlowRunOutcome.fuelOut
  | _ =>
    FlowRunOutcome.ok
      { result := resultOf r.state
        messages := r.state.messages
        nodeExecutionTracker := r.state.nodeExecutionTracker }

/-! ### Graph construction (`FlowConverter.convert`)

The stored graph description: node descriptors `{id, label, type,
properties}` and edge descriptors `{id, source, target}`. -/

/-- A React-Flow node descriptor. -/
structure FlowNodeDesc where
  id : String
  label : String
  nodeType : String
  properties : NodeProps := {}
deriving DecidableEq, Repr

/-- A React-Flow edge descriptor. -/
structure EdgeDesc where
  id : String
  source : String
  target : String
deriving DecidableEq, Repr

/-- A node as held in the converter's `nodesMap`: the dispatched kind (the
four known type tags), its params, and its successor map under
construction. -/
structure BuiltNode where
  typeTag : String
  params : NodeParams
  succ : List (String × String)
deriving DecidableEq, Repr

/-- JS `Map.set`: overwrite in place when the key exists (keeping its
insertion position), append otherwise. -/
def mapSet (m : List (String × β)) (k : String) (v : β) : List (String × β) :=
  match m with
  | [] => [(k, v)]
  | (k0, v0) :: rest =>
    if k0 = k then (k0, v) :: rest else (k0, v0) :: mapSet rest k v

/-- `FlowConverter.createNode`: dispatch on the node's `type`; an unknown
tag throws.  The node's params are `{id, label, type, properties}`. -/
def createNode (n : FlowNodeDesc) : Except String BuiltNode :=
  if n.nodeType = "start" || n.nodeType = "process" || n.nodeType = "mcp"
      || n.nodeType = "finish" then
    Except.ok
      { typeTag := n.nodeType
        params := { id := n.id, label := some n.label, nodeType := n.nodeType
                    properties := n.properties }
        succ := [] }
  else Except.error ("Unknown node type: " ++ n.nodeType)

/-- First pass of `convert`, iterating the descriptors in order and
inserting each created node into the map. -/
def buildNodesAux (m : List (String × BuiltNode)) :
    List FlowNodeDesc → Except String (List (String × BuiltNode))
  | [] => Except.ok m
  | n :: rest =>
    match createNode n with
    | Except.error e => Except.error e
    | Except.ok bn => buildNodesAux (mapSet m n.id bn) rest

/-- First pass of `convert`: create one node per descriptor. -/
def buildNodes (nodes : List FlowNodeDesc) :
    Except String (List (String × BuiltNode)) :=
  buildNodesAux [] nodes

/-- Second pass of `convert`: wire each edge, using the edge's own id as
the action name (`edge.id || 'default'`); edges whose endpoints are not in
the map are skipped with a warning; a duplicate action on one source node
makes `addSuccessor` throw. -/
def wireEdges (m : List (String × BuiltNode)) :
    List EdgeDesc → Except String (List (String × BuiltNode))
  | [] => Except.ok m
  | e :: rest =>
    match getAction m e.source, getAction m e.target with
    | some sn, some _ =>
      let action := if e.id = "" then "default" else e.id
      match addSuccessor sn.succ e.target action with
      | Except.error err => Except.error err
      | Except.ok succ1 => wireEdges (mapSet m e.source { sn with succ := succ1 }) rest
    | _, _ => wireEdges m rest

/-- The converter's output: a Flow wrapping the chosen start node, with
the wired node table. -/
structure ConvertedFlow where
  start : String
  nodes : List (String × BuiltNode)
deriving DecidableEq, Repr

/-- `FlowConverter.convert`: build all nodes, wire the edges, then locate
the start node with `nodes.find(type === 'start')` — the **first**
descriptor whose type is `start` — failing when there is none, and wrap it
into a Flow.  (The per-node parameter table the converter also assembles is
not modelled; no claim depends on it.) -/
def convert (nodes : List FlowNodeDesc) (edges : List EdgeDesc) :
    Except String ConvertedFlow :=
  match buildNodes nodes with
  | Except.error e => Except.error e
  | Except.ok m0 =>
    match wireEdges m0 edges with
    | Except.error e => Except.error e
    | Except.ok m =>
      match nodes.find? (fun n => n.nodeType = "start") with
      | none => Except.error "Flow must have a start node"
      | some startNode =>
        match getAction m startNode.id with
        | none => Except.error "Failed to create start node"
        | some _ => Except.ok { start := startNode.id, nodes := m }

/-- Wait-free check used in statements: did construction succeed? -/
def convertOk (nodes : List FlowNodeDesc) (edges : List EdgeDesc) : Bool :=
  match convert nodes edges with
  | Except.ok _ => true
  | Except.error _ => false

/-! ### A JavaScript heap, for `BaseNode.clone`

`clone` deep-copies `flow_params` and `node_params` with lodash
`cloneDeep` and shallow-copies the successor map with `new Map(...)`.
Mutation claims need reference semantics, so parameter values live in an
explicit heap: a cell holds a primitive or an array/object of references
to further cells.  `cloneDeep` is fuel-indexed because a JS object graph
may be cyclic. -/

/-- A heap cell value: JS primitives, or collections of references. -/
inductive HVal where
  | null
  | str (s : String)
  | num (n : Int)
  | arr (elems : List Nat)
  | obj (fields : List (String × Nat))
deriving DecidableEq, Repr

/-- The references stored directly in a cell value. -/
def valRefs : HVal → List Nat
  | HVal.arr es => es
  | HVal.obj fs => fs.map (fun p => p.2)
  | _ => []

/-- A heap: allocation counter and cell contents. -/
structure Heap where
  next : Nat
  mem : Nat → Option HVal

/-- Allocate a fresh cell. -/
def Heap.alloc (h : Heap) (v : HVal) : Nat × Heap :=
  (h.next, ⟨h.next + 1, fun q => if q = h.next then some v else h.mem q⟩)

/-- Overwrite an existing cell (a JS mutation such as `params.x = v`). -/
def Heap.update (h : Heap) (r : Nat) (v : HVal) : Heap :=
  ⟨h.next, fun q => if q = r then some v else h.mem q⟩

/-- Every reference stored in a live cell points below the allocation
counter: the global well-formedness invariant of a JS heap. -/
def Heap.ClosedBelowNext (h : Heap) : Prop :=
  ∀ q, q < h.next → ∀ v, h.mem q = some v → ∀ x ∈ valRefs v, x < h.next

mutual

/-- lodash `cloneDeep`: recursively copy the structure reachable from a
reference into fresh cells. -/
def cloneDeepF : Nat → Heap → Nat → Option (Nat × Heap)
  | 0, _, _ => none
  | fuel + 1, h, r =>
    match h.mem r with
    | none => none
    | some (HVal.arr es) =>
      match cloneMany fuel h es with
      | none => none
      | some (rs, h1) => some (h1.alloc (HVal.arr rs))
    | some (HVal.obj fs) =>
      match cloneFields fuel h fs with
      | none => none
      | some (fs1, h1) => some (h1.alloc (HVal.obj fs1))
    | some v => some (h.alloc v)

/-- `cloneDeep` over the element references of an array. -/
def cloneMany : Nat → Heap → List Nat → Option (List Nat × Heap)
  | _, h, [] => some ([], h)
  | 0, _, _ :: _ => none
  | fuel + 1, h, r :: rs =>
    match cloneDeepF fuel h r with
    | none => none
    | some (r1, h1) =>
      match cloneMany fuel h1 rs with
      | none => none
      | some (rs1, h2) => some (r1 :: rs1, h2)

/-- `cloneDeep` over the fields of an object. -/
def cloneFields : Nat → Heap → List (String × Nat) →
    Option (List (String × Nat) × Heap)
  | _, h, [] => some ([], h)
  | 0, _, _ :: _ => none
  | fuel + 1, h, (k, r) :: fs =>
    match cloneDeepF fuel h r with
    | none => none
    | some (r1, h1) =>
      match cloneFields fuel h1 fs with
      | none => none
      | some (fs1, h2) => some ((k, r1) :: fs1, h2)

end

/-- The pure tree denoted by a reference (how a test would observe a
params object), fuel-indexed like the clone. -/
inductive PVal where
  | null
  | str (s : String)
  | num (n : Int)
  | arr (xs : List PVal)
  | obj (fs : List (String × PVal))
deriving Repr

mutual

/-- Observe the value tree at a reference. -/
def readVal : Nat → Heap → Nat → Option PVal
  | 0, _, _ => none
  | fuel + 1, h, r =>
    match h.mem r with
    | none => none
    | some HVal.null => some PVal.null
    | some (HVal.str s) => some (PVal.str s)
    | some (HVal.num n) => some (PVal.num n)
    | some (HVal.arr es) => (readMany fuel h es).map PVal.arr
    | some (HVal.obj fs) => (readFields fuel h fs).map PVal.obj

/-- Observe the trees of an array's elements. -/
def readMany : Nat → Heap → List Nat → Option (List PVal)
  | _, _, [] => some []
  | 0, _, _ :: _ => none
  | fuel + 1, h, r :: rs =>
    match readVal fuel h r, readMany fuel h rs with
    | some v, some vs => some (v :: vs)
    | _, _ => none

/-- Observe the trees of an object's fields. -/
def readFields : Nat → Heap → List (String × Nat) →
    Option (List (String × PVal))
  | _, _, [] => some []
  | 0, _, _ :: _ => none
  | fuel + 1, h, (k, r) :: fs =>
    match readVal fuel h r, readFields fuel h fs with
    | some v, some vs => some ((k, v) :: vs)
    | _, _ => none

end

/-- A `BaseNode` as a template: references to its two param objects plus
its successor map (action key → reference to the successor node). -/
structure NodeRecord where
  flowParams : Nat
  nodeParams : Nat
  successors : List (String × Nat)
deriving DecidableEq, Repr

/-- `BaseNode.clone`: a fresh node object whose `flow_params` and
`node_params` are deep copies and whose successor map is a new map holding
the same entries (`new Map(this.successors)`). -/
def cloneNode (h : Heap) (t : NodeRecord) (fuel : Nat) :
    Option (NodeRecord × Heap) :=
  match cloneDeepF fuel h t.flowParams with
  | none => none
  | some (fp, h1) =>
    match cloneDeepF fuel h1 t.nodeParams with
    | none => none
    | some (np, h2) =>
      some ({ flowParams := fp, nodeParams := np, successors := t.successors }, h2)

/-! Footprint properties of `cloneDeep`: the old heap region is untouched,
and the copy lives entirely in the freshly allocated region, referring
only into it. -/

/-- `h1` extends `h` without disturbing existing cells. -/
def HeapExtends (h h1 : Heap) : Prop :=
  h.next ≤ h1.next ∧ ∀ q, q < h.next → h1.mem q = h.mem q

/-- All cells allocated between `h.next` and `h1.next` refer only to that
same fresh region. -/
def FreshRegionClosed (h h1 : Heap) : Prop :=
  ∀ q, h.next ≤ q → q < h1.next → ∀ v, h1.mem q = some v →
    ∀ x ∈ valRefs v, h.next ≤ x ∧ x < h1.next

theorem heapExtends_refl (h : Heap) : HeapExtends h h :=
  ⟨Nat.le_refl _, fun _ _ => rfl⟩

theorem heapExtends_trans {h h1 h2 : Heap} (a : HeapExtends h h1)
    (b : HeapExtends h1 h2) : HeapExtends h h2 := by
  refine ⟨Nat.le_trans a.1 b.1, fun q hq => ?_⟩
  rw [b.2 q (Nat.lt_of_lt_of_le hq a.1), a.2 q hq]

theorem freshRegionClosed_refl (h : Heap) : FreshRegionClosed h h := by
  intro q h1 h2
  omega

theorem freshRegionClosed_comp {h h1 h2 : Heap} (a : HeapExtends h h1)
    (fa : FreshRegionClosed h h1) (b : HeapExtends h1 h2)
    (fb : FreshRegionClosed h1 h2) : FreshRegionClosed h h2 := by
  intro q hq1 hq2 v hv x hx
  have hb1 := b.1
  by_cases hcase : q < h1.next
  · have hmem : h1.mem q = some v := by rw [← b.2 q hcase]; exact hv
    have := fa q hq1 hcase v hmem x hx
    omega
  · have := fb q (Nat.le_of_not_lt hcase) hq2 v hv x hx
    have := a.1
    omega

theorem alloc_extends (h : Heap) (v : HVal) : HeapExtends h (h.alloc v).2 := by
  refine ⟨Nat.le_succ _, fun q hq => ?_⟩
  have : ¬ q = h.next := by omega
  simp [Heap.alloc, this]

theorem alloc_mem_self (h : Heap) (v : HVal) :
    ((h.alloc v).2).mem h.next = some v := by
  simp [Heap.alloc]

/-- Allocating a cell whose references all lie in the fresh region of an
extension keeps the combined region closed. -/
theorem alloc_after_spec (h hm2 : Heap) (v : HVal)
    (hext : HeapExtends h hm2) (hfrc : FreshRegionClosed h hm2)
    (hrefs : ∀ x ∈ valRefs v, h.next ≤ x ∧ x < hm2.next) :
    (HeapExtends h (hm2.alloc v).2 ∧ FreshRegionClosed h (hm2.alloc v).2) ∧
      h.next ≤ (hm2.alloc v).1 ∧ (hm2.alloc v).1 < ((hm2.alloc v).2).next := by
  have hle := hext.1
  refine ⟨⟨heapExtends_trans hext (alloc_extends hm2 v), ?_⟩, ?_⟩
  · intro q hq1 hq2 w hw x hx
    simp only [Heap.alloc] at hq2
    by_cases hqn : q = hm2.next
    · subst hqn
      rw [alloc_mem_self] at hw
      cases hw
      have := hrefs x hx
      simp only [Heap.alloc]
      omega
    · have hq2n : q < hm2.next := by omega
      have hwm : hm2.mem q = some w := by
        simpa [Heap.alloc, hqn] using hw
      have := hfrc q hq1 hq2n w hwm x hx
      simp only [Heap.alloc]
      omega
  · simp only [Heap.alloc]
    omega

/-- The footprint of `cloneDeep`: the original heap is untouched, the copy
is allocated entirely in the fresh region and refers only into it. -/
theorem cloneSpecAll : ∀ fuel : Nat,
    (∀ h r r1 h1, cloneDeepF fuel h r = some (r1, h1) →
      (HeapExtends h h1 ∧ FreshRegionClosed h h1) ∧ h.next ≤ r1 ∧ r1 < h1.next) ∧
    (∀ h rs rs1 h1, cloneMany fuel h rs = some (rs1, h1) →
      (HeapExtends h h1 ∧ FreshRegionClosed h h1) ∧
        ∀ x ∈ rs1, h.next ≤ x ∧ x < h1.next) ∧
    (∀ h fs fs1 h1, cloneFields fuel h fs = some (fs1, h1) →
      (HeapExtends h h1 ∧ FreshRegionClosed h h1) ∧
        ∀ p ∈ fs1, h.next ≤ p.2 ∧ p.2 < h1.next) := by
  intro fuel
  induction fuel with
  | zero =>
    refine ⟨fun h r r1 h1 hc => ?_, fun h rs rs1 h1 hc => ?_,
      fun h fs fs1 h1 hc => ?_⟩
    · simp [cloneDeepF] at hc
    · match rs with
      | [] =>
        simp only [cloneMany, Option.some.injEq, Prod.mk.injEq] at hc
        obtain ⟨h1, h2⟩ := hc
        subst h1; subst h2
        exact ⟨⟨heapExtends_refl h, freshRegionClosed_refl h⟩, by simp⟩
      | _ :: _ => simp [cloneMany] at hc
    · match fs with
      | [] =>
        simp only [cloneFields, Option.some.injEq, Prod.mk.injEq] at hc
        obtain ⟨h1, h2⟩ := hc
        subst h1; subst h2
        exact ⟨⟨heapExtends_refl h, freshRegionClosed_refl h⟩, by simp⟩
      | _ :: _ => simp [cloneFields] at hc
  | succ n ih =>
    obtain ⟨ihD, ihM, ihF⟩ := ih
    refine ⟨fun h r r1 h1 hc => ?_, fun h rs rs1 h1 hc => ?_,
      fun h fs fs1 h1 hc => ?_⟩
    · simp only [cloneDeepF] at hc
      cases hmem : h.mem r with
      | none => simp [hmem] at hc
      | some v =>
        cases v with
        | arr es =>
          simp only [hmem] at hc
          cases hm : cloneMany n h es with
          | none => simp [hm] at hc
          | some p =>
            obtain ⟨rs, hm2⟩ := p
            simp only [hm, Option.some.injEq] at hc
            have hspec := ihM h es rs hm2 hm
            have hrefs : ∀ x ∈ valRefs (HVal.arr rs), h.next ≤ x ∧ x < hm2.next := by
              intro x hx
              exact hspec.2 x hx
            have := alloc_after_spec h hm2 (HVal.arr rs) hspec.1.1 hspec.1.2 hrefs
            simp only [hc] at this
            exact this
        | obj fsv =>
          simp only [hmem] at hc
          cases hm : cloneFields n h fsv with
          | none => simp [hm] at hc
          | some p =>
            obtain ⟨fs1v, hm2⟩ := p
            simp only [hm, Option.some.injEq] at hc
            have hspec := ihF h fsv fs1v hm2 hm
            have hrefs : ∀ x ∈ valRefs (HVal.obj fs1v), h.next ≤ x ∧ x < hm2.next := by
              intro x hx
              simp only [valRefs, List.mem_map] at hx
              obtain ⟨pp, hpp, hpx⟩ := hx
              have := hspec.2 pp hpp
              omega
            have := alloc_after_spec h hm2 (HVal.obj fs1v) hspec.1.1 hspec.1.2 hrefs
            simp only [hc] at this
            exact this
        | null =>
          simp only [hmem, Option.some.injEq] at hc
          have := alloc_after_spec h h HVal.null (heapExtends_refl h)
            (freshRegionClosed_refl h) (by simp [valRefs])
          simp only [hc] at this
          exact this
        | str s =>
          simp only [hmem, Option.some.injEq] at hc
          have := alloc_after_spec h h (HVal.str s) (heapExtends_refl h)
            (freshRegionClosed_refl h) (by simp [valRefs])
          simp only [hc] at this
          exact this
        | num m =>
          simp only [hmem, Option.some.injEq] at hc
          have := alloc_after_spec h h (HVal.num m) (heapExtends_refl h)
            (freshRegionClosed_refl h) (by simp [valRefs])
          simp only [hc] at this
          exact this
    · match rs with
      | [] =>
        simp only [cloneMany, Option.some.injEq, Prod.mk.injEq] at hc
        obtain ⟨ha, hb⟩ := hc
        subst ha; subst hb
        exact ⟨⟨heapExtends_refl h, freshRegionClosed_refl h⟩, by simp⟩
      | r :: rest =>
        simp only [cloneMany] at hc
        cases hd : cloneDeepF n h r with
        | none => simp [hd] at hc
        | some p1 =>
          obtain ⟨r1v, hA⟩ := p1
          simp only [hd] at hc
          cases hm : cloneMany n hA rest with
          | none => simp [hm] at hc
          | some p2 =>
            obtain ⟨rs1v, hB⟩ := p2
            simp only [hm, Option.some.injEq, Prod.mk.injEq] at hc
            obtain ⟨hl, hh⟩ := hc
            subst hl; subst hh
            have s1 := ihD h r r1v hA hd
            have s2 := ihM hA rest rs1v hB hm
            refine ⟨⟨heapExtends_trans s1.1.1 s2.1.1,
              freshRegionClosed_comp s1.1.1 s1.1.2 s2.1.1 s2.1.2⟩, ?_⟩
            intro x hx
            rcases List.mem_cons.mp hx with hx | hx
            · subst hx
              have := s1.2
              have := s2.1.1.1
              omega
            · have := s2.2 x hx
              have := s1.1.1.1
              omega
    · match fs with
      | [] =>
        simp only [cloneFields, Option.some.injEq, Prod.mk.injEq] at hc
        obtain ⟨ha, hb⟩ := hc
        subst ha; subst hb
        exact ⟨⟨heapExtends_refl h, freshRegionClosed_refl h⟩, by simp⟩
      | (k, r) :: rest =>
        simp only [cloneFields] at hc
        cases hd : cloneDeepF n h r with
        | none => simp [hd] at hc
        | some p1 =>
          obtain ⟨r1v, hA⟩ := p1
          simp only [hd] at hc
          cases hm : cloneFields n hA rest with
          | none => simp [hm] at hc
          | some p2 =>
            obtain ⟨fs1v, hB⟩ := p2
            simp only [hm, Option.some.injEq, Prod.mk.injEq] at hc
            obtain ⟨hl, hh⟩ := hc
            subst hl; subst hh
            have s1 := ihD h r r1v hA hd
            have s2 := ihF hA rest fs1v hB hm
            refine ⟨⟨heapExtends_trans s1.1.1 s2.1.1,
              freshRegionClosed_comp s1.1.1 s1.1.2 s2.1.1 s2.1.2⟩, ?_⟩
            intro p hp
            rcases List.mem_cons.mp hp with hp | hp
            · subst hp
              have := s1.2
              have := s2.1.1.1
              simp only []
              omega
            · have := s2.2 p hp
              have := s1.1.1.1
              omega

/-- Observations only depend on the cells of a region that is closed under
the references it stores: heaps agreeing on such a region are
indistinguishable from inside it. -/
theorem readAgreeAll (S : Nat → Prop) (h h1 : Heap)
    (hagree : ∀ q, S q → h1.mem q = h.mem q)
    (hclosed : ∀ q, S q → ∀ v, h.mem q = some v → ∀ x ∈ valRefs v, S x) :
    ∀ fuel : Nat,
    (∀ r, S r → readVal fuel h1 r = readVal fuel h r) ∧
    (∀ rs, (∀ x ∈ rs, S x) → readMany fuel h1 rs = readMany fuel h rs) ∧
    (∀ fs, (∀ p ∈ fs, S p.2) → readFields fuel h1 fs = readFields fuel h fs) := by
  intro fuel
  induction fuel with
  | zero =>
    refine ⟨fun r _ => rfl, fun rs _ => ?_, fun fs _ => ?_⟩
    · match rs with
      | [] => rfl
      | _ :: _ => rfl
    · match fs with
      | [] => rfl
      | _ :: _ => rfl
  | succ n ih =>
    obtain ⟨ihV, ihM, ihF⟩ := ih
    refine ⟨fun r hr => ?_, fun rs hrs => ?_, fun fs hfs => ?_⟩
    · simp only [readVal, hagree r hr]
      cases hmem : h.mem r with
      | none => rfl
      | some v =>
        cases v with
        | null => rfl
        | str s => rfl
        | num m => rfl
        | arr es =>
          have hes : ∀ x ∈ es, S x := hclosed r hr (HVal.arr es) hmem
          show Option.map PVal.arr (readMany n h1 es) =
            Option.map PVal.arr (readMany n h es)
          rw [ihM es hes]
        | obj fsv =>
          have hfsv : ∀ p ∈ fsv, S p.2 := by
            intro p hp
            have hpmem : p.2 ∈ valRefs (HVal.obj fsv) := by
              simp only [valRefs, List.mem_map]
              exact ⟨p, hp, rfl⟩
            exact hclosed r hr (HVal.obj fsv) hmem p.2 hpmem
          show Option.map PVal.obj (readFields n h1 fsv) =
            Option.map PVal.obj (readFields n h fsv)
          rw [ihF fsv hfsv]
    · match rs with
      | [] => rfl
      | r :: rest =>
        have hr : S r := hrs r (by simp)
        have hrest : ∀ x ∈ rest, S x := fun x hx => hrs x (by simp [hx])
        simp only [readMany, ihV r hr, ihM rest hrest]
    · match fs with
      | [] => rfl
      | (k, r) :: rest =>
        have hr : S r := hfs (k, r) (by simp)
        have hrest : ∀ p ∈ rest, S p.2 := fun p hp => hfs p (by simp [hp])
        simp only [readFields, ihV r hr, ihF rest hrest]

/-- `Heap.update` outside a region leaves the region's cells unchanged. -/
theorem update_agree_outside (h : Heap) (r : Nat) (v : HVal) (S : Nat → Prop)
    (hr : ¬ S r) : ∀ q, S q → (h.update r v).mem q = h.mem q := by
  intro q hq
  have : ¬ q = r := fun hqr => hr (hqr ▸ hq)
  simp [Heap.update, this]

/-- Footprint of `BaseNode.clone`: the original heap is untouched, both
copied param objects live in the fresh region, and the successor map is
the template's entry list. -/
theorem cloneNode_spec (h : Heap) (t : NodeRecord) (fuel : Nat)
    (c : NodeRecord) (h2 : Heap) (hc : cloneNode h t fuel = some (c, h2)) :
    (HeapExtends h h2 ∧ FreshRegionClosed h h2) ∧
      (h.next ≤ c.flowParams ∧ c.flowParams < h2.next) ∧
      (h.next ≤ c.nodeParams ∧ c.nodeParams < h2.next) ∧
      c.successors = t.successors := by
  simp only [cloneNode] at hc
  cases hd1 : cloneDeepF fuel h t.flowParams with
  | none => simp [hd1] at hc
  | some p1 =>
    obtain ⟨fp, hA⟩ := p1
    simp only [hd1] at hc
    cases hd2 : cloneDeepF fuel hA t.nodeParams with
    | none => simp [hd2] at hc
    | some p2 =>
      obtain ⟨np, hB⟩ := p2
      simp only [hd2, Option.some.injEq, Prod.mk.injEq] at hc
      obtain ⟨hcn, hh⟩ := hc
      subst hh
      have s1 := (cloneSpecAll fuel).1 h t.flowParams fp hA hd1
      have s2 := (cloneSpecAll fuel).1 hA t.nodeParams np hB hd2
      have hext := heapExtends_trans s1.1.1 s2.1.1
      have hfrc := freshRegionClosed_comp s1.1.1 s1.1.2 s2.1.1 s2.1.2
      have hfp : c.flowParams = fp := by rw [← hcn]
      have hnp : c.nodeParams = np := by rw [← hcn]
      have hsucc : c.successors = t.successors := by rw [← hcn]
      refine ⟨⟨hext, hfrc⟩, ?_, ?_, hsucc⟩
      · rw [hfp]
        have := s1.2
        have := s2.1.1.1
        omega
      · rw [hnp]
        have := s2.2
        have := s1.1.1.1
        omega

/-! ### Auxiliary list lemmas -/

/-- Taking the head of a filtered list (with a default) is finding the
first element satisfying the predicate. -/
theorem filter_head_eq_find (p : String → Bool) (l : List String) (d : String) :
    (match l.filter p with
     | a :: _ => a
     | [] => d) = (l.find? p).getD d := by
  induction l with
  | nil => rfl
  | cons a rest ih =>
    by_cases hp : p a
    · simp [List.filter_cons, List.find?_cons, hp]
    · simp only [List.filter_cons, List.find?_cons]
      rw [if_neg (by simp [hp])]
      simp only [hp, Bool.false_eq_true, if_false, cond_false]
      exact ih

/-- A system-message counter for the message-ordering claims. -/
def countSystem (l : List ChatMessage) : Nat :=
  (l.filter (fun m => m.role = Role.system)).length

theorem countSystem_append (l1 l2 : List ChatMessage) :
    countSystem (l1 ++ l2) = countSystem l1 + countSystem l2 := by
  simp [countSystem, List.filter_append]

theorem countSystem_of_no_system (l : List ChatMessage)
    (h : ∀ m ∈ l, ¬(m.role = Role.system)) : countSystem l = 0 := by
  simp only [countSystem, List.length_eq_zero, List.filter_eq_nil_iff]
  intro m hm
  simp [h m hm]

theorem countSystem_filter_out (l : List ChatMessage) :
    countSystem (l.filter (fun m => !(m.role = Role.system))) = 0 := by
  apply countSystem_of_no_system
  intro m hm
  have := List.of_mem_filter hm
  simp at this
  simp [this]

/-- One step of the orchestration loop: a thrown error aborts at once. -/
theorem orchLoop_step_error {succOf run fuel cur s tr e}
    (h : run cur s = Except.error e) :
    orchLoop succOf run (fuel + 1) cur s tr =
      ⟨s, tr ++ [cur], OrchOutcome.aborted e⟩ := by
  simp [orchLoop, h]

/-- One step of the orchestration loop: the suspend token pauses, storing
the node's id. -/
theorem orchLoop_step_stay {succOf run fuel cur s tr s1}
    (h : run cur s = Except.ok (STAY_ON_NODE_ACTION, s1)) :
    orchLoop succOf run (fuel + 1) cur s tr =
      ⟨{ s1 with currentNodeId := some cur }, tr ++ [cur], OrchOutcome.paused⟩ := by
  simp [orchLoop, h]

/-- One step of the orchestration loop: a matching successor continues
there. -/
theorem orchLoop_step_next {succOf run fuel cur s tr action s1 nxt}
    (h : run cur s = Except.ok (action, s1))
    (ha : ¬ action = STAY_ON_NODE_ACTION)
    (hn : getAction (succOf cur) action = some nxt) :
    orchLoop succOf run (fuel + 1) cur s tr =
      orchLoop succOf run fuel nxt s1 (tr ++ [cur]) := by
  simp [orchLoop, h, ha, hn]

/-- One step of the orchestration loop: no matching successor completes
the flow, clearing `currentNodeId`. -/
theorem orchLoop_step_done {succOf run fuel cur s tr action s1}
    (h : run cur s = Except.ok (action, s1))
    (ha : ¬ action = STAY_ON_NODE_ACTION)
    (hn : getAction (succOf cur) action = none) :
    orchLoop succOf run (fuel + 1) cur s tr =
      ⟨{ s1 with currentNodeId := none }, tr ++ [cur], OrchOutcome.completed⟩ := by
  simp [orchLoop, h, ha, hn]

/-- Entering `orchLoop` with positive fuel records the entry node as the
next element of the visit trace. -/
theorem orchLoop_visited_cons (succOf : String → List (String × String))
    (run : String → SharedState → Except RunError (String × SharedState)) :
    ∀ fuel cur s tr, ∃ rest,
      (orchLoop succOf run (fuel + 1) cur s tr).visited = tr ++ cur :: rest := by
  intro fuel
  induction fuel with
  | zero =>
    intro cur s tr
    cases hr : run cur s with
    | error e => exact ⟨[], by rw [orchLoop_step_error hr]⟩
    | ok p =>
      obtain ⟨action, s1⟩ := p
      by_cases ha : action = STAY_ON_NODE_ACTION
      · subst ha
        exact ⟨[], by rw [orchLoop_step_stay hr]⟩
      · cases hn : getAction (succOf cur) action with
        | some nxt =>
          refine ⟨[], ?_⟩
          rw [orchLoop_step_next hr ha hn]
          rfl
        | none => exact ⟨[], by rw [orchLoop_step_done hr ha hn]⟩
  | succ n ih =>
    intro cur s tr
    cases hr : run cur s with
    | error e => exact ⟨[], by rw [orchLoop_step_error hr]⟩
    | ok p =>
      obtain ⟨action, s1⟩ := p
      by_cases ha : action = STAY_ON_NODE_ACTION
      · subst ha
        exact ⟨[], by rw [orchLoop_step_stay hr]⟩
      · cases hn : getAction (succOf cur) action with
        | some nxt =>
          obtain ⟨rest, hrest⟩ := ih nxt s1 (tr ++ [cur])
          refine ⟨nxt :: rest, ?_⟩
          rw [orchLoop_step_next hr ha hn, hrest]
          simp
        | none => exact ⟨[], by rw [orchLoop_step_done hr ha hn]⟩

/-! ### Claim theorems -/

/-- C1: a node whose `post` returns the suspend token makes the
orchestrator set `currentNodeId` to that node's id and return immediately,
entering no successor (the visit trace gains only that node); and invoking
orchestration again on a state whose `currentNodeId` is still set resumes
the loop at that node — the first node entered is the suspended node, not
the start node. -/
theorem flujo_C1 (succOf : String → List (String × String))
    (run : String → SharedState → Except RunError (String × SharedState))
    (cur start nid : String) (s s1 s0 : SharedState) (tr : List String)
    (fuel bfsFuel : Nat) :
    (run cur s = Except.ok (STAY_ON_NODE_ACTION, s1) →
      orchLoop succOf run (fuel + 1) cur s tr =
        ⟨{ s1 with currentNodeId := some cur }, tr ++ [cur],
          OrchOutcome.paused⟩) ∧
    (s0.currentNodeId = some nid →
      bfsFind succOf nid bfsFuel [start] [] = some nid →
      orchestrate succOf run start (fuel + 1) bfsFuel s0 =
        orchLoop succOf run (fuel + 1) nid s0 [] ∧
      ∃ rest, (orchestrate succOf run start (fuel + 1) bfsFuel s0).visited =
        nid :: rest) := by
  constructor
  · intro h
    exact orchLoop_step_stay h
  · intro hcur hbfs
    have hentry : orchestrate succOf run start (fuel + 1) bfsFuel s0 =
        orchLoop succOf run (fuel + 1) nid s0 [] := by
      simp [orchestrate, hcur, hbfs]
    refine ⟨hentry, ?_⟩
    obtain ⟨rest, hrest⟩ := orchLoop_visited_cons succOf run fuel nid s0 []
    exact ⟨rest, by rw [hentry, hrest]; rfl⟩

/-- Fixed node behavior for the C1 witness: every node suspends. -/
def wRun : String → SharedState → Except RunError (String × SharedState) :=
  fun _ s => Except.ok (STAY_ON_NODE_ACTION, s)

/-- Edgeless successor map for the C1 witness. -/
def wSucc : String → List (String × String) :=
  fun _ => []

/-- A fresh shared state for the C1 witness. -/
def wS : SharedState := { messages := [] }

/-- A shared state suspended at node `"n1"` for the C1 witness. -/
def wS0 : SharedState := { messages := [], currentNodeId := some "n1" }

/-- C1 witness: on the one-node graph `"n1"` whose run suspends, the loop
pauses at `"n1"` storing its id, and a resumed orchestration starts back
at `"n1"`. -/
theorem flujo_C1_witness :
    orchLoop wSucc wRun 1 "n1" wS [] =
      ⟨{ wS with currentNodeId := some "n1" }, [] ++ ["n1"],
        OrchOutcome.paused⟩ ∧
    (orchestrate wSucc wRun "n1" 1 1 wS0 = orchLoop wSucc wRun 1 "n1" wS0 [] ∧
      ∃ rest, (orchestrate wSucc wRun "n1" 1 1 wS0).visited = "n1" :: rest) :=
  ⟨(flujo_C1 wSucc wRun "n1" "n1" "n1" wS wS wS0 [] 0 1).1 rfl,
   (flujo_C1 wSucc wRun "n1" "n1" "n1" wS wS wS0 [] 0 1).2 rfl (by decide)⟩

/-- C2: when the model-invocation collaborator fails, the process node's
`execCore` wraps the failure as an aborting error carrying the provider's
message, type and code, and raises it; the error propagates uncaught
through the orchestration loop — which returns with the shared state
exactly as it was when the failing node was entered (so no tracker entry
exists for the failing node or any node after it) and a visit trace ending
at the failing node — and through the run call, which rejects with it. -/
theorem flujo_C2 (c : Collab) (g : Graph) (nid : String) (gn : GraphNode)
    (s : SharedState) (tr : List String) (fuel bfsFuel : Nat)
    (pr : ProcessNodePrepResult) (E : ModelErrorInfo)
    (hnode : getAction g.nodes nid = some gn)
    (hkind : gn.kind = NodeKind.process)
    (hprep : processPrep c s (some gn.params) = Except.ok pr)
    (htools : pr.availableTools = [] ∨
      ∃ ts, c.prepareTools pr.availableTools = Except.ok ts)
    (hcall : ∀ input, c.callModel input = Except.error E) :
    ∃ ab : ModelAbortError,
      ab.message = "Model execution failed: " ++ E.message ∧
      ab.isModelError = true ∧
      ab.detailsMessage = E.message ∧
      ab.detailsType = E.errType ∧
      ab.detailsCode = E.code ∧
      processExecCore c pr (some gn.params) = Except.error ab ∧
      runGraphNode c g nid s = Except.error (RunError.modelAbort ab) ∧
      orchLoop g.succOf (runGraphNode c g) (fuel + 1) nid s tr =
        ⟨s, tr ++ [nid], OrchOutcome.aborted (RunError.modelAbort ab)⟩ ∧
      (s.currentNodeId = none → g.start = nid →
        executeFlow c g (fuel + 1) bfsFuel s =
          FlowRunOutcome.raised (RunError.modelAbort ab)) := by
  have hexec : processExecCore c pr (some gn.params) = Except.error
      { message := "Model execution failed: " ++ E.message
        isModelError := true
        detailsMessage := E.message
        detailsType := E.errType
        detailsCode := E.code
        detailsModelId := if E.errType = "model" then E.modelId else none
        detailsParam := E.detailsParam
        detailsStatus := E.detailsStatus } := by
    rcases htools with h | ⟨ts, hts⟩
    · simp [processExecCore, h, hcall]
    · by_cases hlen : pr.availableTools.length > 0
      · simp [processExecCore, hlen, hts, hcall]
      · simp [processExecCore, hlen, hcall]
  have hrun : runGraphNode c g nid s = Except.error (RunError.modelAbort
      { message := "Model execution failed: " ++ E.message
        isModelError := true
        detailsMessage := E.message
        detailsType := E.errType
        detailsCode := E.code
        detailsModelId := if E.errType = "model" then E.modelId else none
        detailsParam := E.detailsParam
        detailsStatus := E.detailsStatus }) := by
    simp [runGraphNode, hnode, hkind, hprep, hexec]
  have hloop := @orchLoop_step_error g.succOf (runGraphNode c g) fuel nid s
    tr _ hrun
  refine ⟨_, rfl, rfl, rfl, rfl, rfl, hexec, hrun, hloop, ?_⟩
  intro hcur hstart
  have hloop0 := @orchLoop_step_error g.succOf (runGraphNode c g) fuel nid s
    [] _ hrun
  simp [executeFlow, orchestrate, hcur, hstart, hloop0]

/-- The provider error of the C2 witness. -/
def wErr : ModelErrorInfo :=
  { message := "bad key", errType := "authentication_error", code := some "401" }

/-- Collaborators for the C2 witness: trivial renderer and tool handlers,
and a model invocation that always fails with `wErr`. -/
def wCollab : Collab :=
  { renderPrompt := fun _ _ _ => "P"
    processMCPNodes := fun _ => Except.ok []
    prepareTools := fun ts => Except.ok ts
    callModel := fun _ => Except.error wErr
    enableTracker := true }

/-- Params of the process node in the C2 witness graph. -/
def wProcParams : NodeParams :=
  { id := "p1", nodeType := "process"
    properties := { boundModel := some "gpt" } }

/-- The wired process node of the C2 witness graph. -/
def wProcNode : GraphNode :=
  { kind := NodeKind.process, params := wProcParams, succ := [("e1", "p1")] }

/-- The one-process-node graph of the C2 witness. -/
def wGraphC2 : Graph :=
  { start := "p1", nodes := [("p1", wProcNode)] }

/-- Initial shared state of the C2 witness. -/
def wStateC2 : SharedState :=
  { messages := [⟨Role.user, "hi"⟩], flowId := some "f1" }

/-- The prep result the C2 witness process node computes. -/
def wPrep : ProcessNodePrepResult :=
  { nodeId := "p1", currentPrompt := "P", boundModel := "gpt"
    availableTools := []
    messages := [⟨Role.system, "P"⟩, ⟨Role.user, "hi"⟩] }

/-- C2 witness: the concrete one-node flow whose model invocation fails
with `wErr` aborts with the wrapped provider error. -/
theorem flujo_C2_witness :
    ∃ ab : ModelAbortError,
      ab.message = "Model execution failed: " ++ wErr.message ∧
      ab.isModelError = true ∧
      ab.detailsMessage = wErr.message ∧
      ab.detailsType = wErr.errType ∧
      ab.detailsCode = wErr.code ∧
      processExecCore wCollab wPrep (some wProcNode.params) = Except.error ab ∧
      runGraphNode wCollab wGraphC2 "p1" wStateC2 =
        Except.error (RunError.modelAbort ab) ∧
      orchLoop wGraphC2.succOf (runGraphNode wCollab wGraphC2) (0 + 1) "p1"
          wStateC2 [] =
        ⟨wStateC2, [] ++ ["p1"], OrchOutcome.aborted (RunError.modelAbort ab)⟩ ∧
      (wStateC2.currentNodeId = none → wGraphC2.start = "p1" →
        executeFlow wCollab wGraphC2 (0 + 1) 0 wStateC2 =
          FlowRunOutcome.raised (RunError.modelAbort ab)) :=
  flujo_C2 wCollab wGraphC2 "p1" wProcNode wStateC2 [] 0 0 wPrep wErr
    rfl rfl rfl (Or.inl rfl) (fun _ => rfl)

/-- C7: when the snapshot of a finish node's messages ends with a
(non-empty) assistant message, `post` stores its content as the last
response; with no outgoing edges `post` returns the reserved final-response
token, with outgoing edges the first edge's action; and a run of the flow
whose single node is such a finish node with last assistant content
`"done"` completes with `result.result` equal to `"done"`. -/
theorem flujo_C7 (c : Collab) (pr : FinishNodePrepResult) (s : SharedState)
    (np : Option NodeParams) (succActions : List String) (content : String)
    (fid : String) (fparams : NodeParams) (s0 : SharedState)
    (fuel bfsFuel : Nat) :
    (pr.messages.getLast? = some ⟨Role.assistant, content⟩ →
      ¬ content = "" →
      (finishPost c pr s np succActions).2.lastResponse =
        some (LastResponse.text content)) ∧
    (succActions = [] →
      (finishPost c pr s np succActions).1 = FINAL_RESPONSE_ACTION) ∧
    (∀ a rest, succActions = a :: rest →
      (finishPost c pr s np succActions).1 = a) ∧
    (s0.currentNodeId = none →
      s0.messages.getLast? = some ⟨Role.assistant, "done"⟩ →
      ∃ res : FlowRunResult,
        executeFlow c
          { start := fid
            nodes := [(fid, { kind := NodeKind.finish, params := fparams,
                              succ := [] })] }
          (fuel + 1) bfsFuel s0 = FlowRunOutcome.ok res ∧
        res.result = LastResponse.text "done") := by
  refine ⟨?_, ?_, ?_, ?_⟩
  · intro hlast hc
    by_cases he : c.enableTracker <;>
      simp [finishPost, hlast, hc, he]
  · intro h
    simp [finishPost, h]
  · intro a rest h
    simp [finishPost, h]
  · intro hcur hlast
    have hgn : getAction
        (({ start := fid,
            nodes := [(fid, { kind := NodeKind.finish, params := fparams,
                              succ := [] })] } : Graph)).nodes fid =
        some { kind := NodeKind.finish, params := fparams, succ := [] } := by
      simp [getAction]
    have hpost := finishPost c (finishPrep s0 (some fparams)) s0 (some fparams)
      ([] : List String)
    have hrun : runGraphNode c
        { start := fid
          nodes := [(fid, { kind := NodeKind.finish, params := fparams,
                            succ := [] })] } fid s0 =
        Except.ok (finishPost c (finishPrep s0 (some fparams)) s0
          (some fparams) []) := by
      simp [runGraphNode, hgn]
    have haction : (finishPost c (finishPrep s0 (some fparams)) s0
        (some fparams) []).1 = FINAL_RESPONSE_ACTION := by
      simp [finishPost]
    have hresp : (finishPost c (finishPrep s0 (some fparams)) s0
        (some fparams) []).2.lastResponse = some (LastResponse.text "done") := by
      have hmsgs : (finishPrep s0 (some fparams)).messages = s0.messages := rfl
      by_cases he : c.enableTracker <;>
        simp [finishPost, hmsgs, hlast, he]
    have hrunpair : runGraphNode c
        { start := fid
          nodes := [(fid, { kind := NodeKind.finish, params := fparams,
                            succ := [] })] } fid s0 =
        Except.ok (FINAL_RESPONSE_ACTION,
          (finishPost c (finishPrep s0 (some fparams)) s0 (some fparams) []).2) := by
      rw [hrun, ← haction]
    have hnostay : ¬ (FINAL_RESPONSE_ACTION = STAY_ON_NODE_ACTION) := by decide
    have hnosucc : getAction
        (Graph.succOf
          { start := fid
            nodes := [(fid, { kind := NodeKind.finish, params := fparams,
                              succ := [] })] } fid)
        FINAL_RESPONSE_ACTION = none := by
      simp [Graph.succOf, getAction]
    set S1 : SharedState :=
      (finishPost c (finishPrep s0 (some fparams)) s0 (some fparams) []).2
      with hS1
    have hloop : orchLoop
        (Graph.succOf
          { start := fid
            nodes := [(fid, { kind := NodeKind.finish, params := fparams,
                              succ := [] })] })
        (runGraphNode c
          { start := fid
            nodes := [(fid, { kind := NodeKind.finish, params := fparams,
                              succ := [] })] })
        (fuel + 1) fid s0 [] =
        ⟨{ S1 with currentNodeId := none }, [] ++ [fid],
          OrchOutcome.completed⟩ :=
      orchLoop_step_done hrunpair hnostay hnosucc
    refine ⟨{ result := resultOf { S1 with currentNodeId := none }
              messages := S1.messages
              nodeExecutionTracker := S1.nodeExecutionTracker }, ?_, ?_⟩
    · simp only [executeFlow, orchestrate, hcur, hloop]
    · show resultOf { S1 with currentNodeId := none } = LastResponse.text "done"
      simp only [resultOf]
      simp only [hresp]
      rw [if_neg (by decide)]

/-- Params of the finish node in the C7 witness. -/
def wFinParams : NodeParams := { id := "f1", nodeType := "finish" }

/-- Initial shared state of the C7 witness run: history ending with the
assistant message `"done"`. -/
def wS7 : SharedState :=
  { messages := [⟨Role.user, "hi"⟩, ⟨Role.assistant, "done"⟩] }

/-- C7 witness: the concrete single-finish-node flow over a history ending
in the assistant message `"done"`. -/
theorem flujo_C7_witness :
    (finishPost wCollab ⟨"f1", [⟨Role.assistant, "done"⟩]⟩ wS
        (some wFinParams) []).2.lastResponse =
      some (LastResponse.text "done") ∧
    (finishPost wCollab ⟨"f1", [⟨Role.assistant, "done"⟩]⟩ wS
        (some wFinParams) []).1 = FINAL_RESPONSE_ACTION ∧
    (finishPost wCollab ⟨"f1", [⟨Role.assistant, "done"⟩]⟩ wS
        (some wFinParams) ["e9"]).1 = "e9" ∧
    (∃ res : FlowRunResult,
      executeFlow wCollab
        { start := "f1"
          nodes := [("f1", { kind := NodeKind.finish, params := wFinParams,
                             succ := [] })] }
        (0 + 1) 0 wS7 = FlowRunOutcome.ok res ∧
      res.result = LastResponse.text "done") :=
  ⟨(flujo_C7 wCollab ⟨"f1", [⟨Role.assistant, "done"⟩]⟩ wS (some wFinParams)
      [] "done" "f1" wFinParams wS7 0 0).1 (by decide) (by decide),
   (flujo_C7 wCollab ⟨"f1", [⟨Role.assistant, "done"⟩]⟩ wS (some wFinParams)
      [] "done" "f1" wFinParams wS7 0 0).2.1 rfl,
   (flujo_C7 wCollab ⟨"f1", [⟨Role.assistant, "done"⟩]⟩ wS (some wFinParams)
      ["e9"] "done" "f1" wFinParams wS7 0 0).2.2.1 "e9" [] rfl,
   (flujo_C7 wCollab ⟨"f1", [⟨Role.assistant, "done"⟩]⟩ wS (some wFinParams)
      [] "done" "f1" wFinParams wS7 0 0).2.2.2 rfl (by decide)⟩

/-- `ProcessNode.post` replaces the state's messages with the exec
result's list whenever that list is present and non-empty. -/
theorem processPost_messages (pr : ProcessNodePrepResult)
    (er : ProcessNodeExecResult) (s : SharedState) (np : Option NodeParams)
    (keys : List String) (l : List ChatMessage)
    (hm : er.messages = some l) (hlen : 0 < l.length) :
    (processPost pr er s np keys).2.messages = l := by
  simp only [processPost, hm]
  rw [if_pos (show l.length > 0 by omega)]

/-- C6: a successful `ProcessNode.prep` produces a message list headed by
exactly one freshly rendered system message — its content the rendered
prompt — followed by all non-system messages of the shared state in their
original order, so the prepared list has exactly one system message; and
when the process-node step commits an exec-result message list that
extends the prepared list by non-system messages only (the shape the
model/tool round trip produces per the spec), the resulting
`SharedState.messages` again has exactly one system message. -/
theorem flujo_C6 (c : Collab) (s : SharedState) (np : Option NodeParams)
    (pr : ProcessNodePrepResult)
    (hprep : processPrep c s np = Except.ok pr) :
    pr.messages = ⟨Role.system, pr.currentPrompt⟩ ::
      s.messages.filter (fun m => !(m.role = Role.system)) ∧
    pr.currentPrompt =
      c.renderPrompt (s.flowId.getD "") ((np.map (fun p => p.id)).getD "")
        ⟨(np.map (fun p => p.properties.excludeModelPrompt)).getD false,
         (np.map (fun p => p.properties.excludeStartNodePrompt)).getD false⟩ ∧
    countSystem pr.messages = 1 ∧
    (∀ (er : ProcessNodeExecResult) (extra : List ChatMessage)
        (succActions : List String),
      er.success = true →
      er.messages = some (pr.messages ++ extra) →
      (∀ m ∈ extra, ¬(m.role = Role.system)) →
      countSystem ((processPost pr er s np succActions).2.messages) = 1) := by
  simp only [processPrep] at hprep
  split at hprep
  · exact absurd hprep (by simp)
  · split at hprep
    · exact absurd hprep (by simp)
    · split at hprep
      · exact absurd hprep (by simp)
      · rename_i havail heq
        injection hprep with hpr
        have hmsg : pr.messages = ⟨Role.system, pr.currentPrompt⟩ ::
            s.messages.filter (fun m => !(m.role = Role.system)) := by
          rw [← hpr]
        have hprompt : pr.currentPrompt =
            c.renderPrompt (s.flowId.getD "")
              ((np.map (fun p => p.id)).getD "")
              ⟨(np.map (fun p => p.properties.excludeModelPrompt)).getD false,
               (np.map (fun p => p.properties.excludeStartNodePrompt)).getD false⟩ := by
          rw [← hpr]
        have hcount : countSystem pr.messages = 1 := by
          rw [hmsg]
          simp only [countSystem, List.filter_cons]
          rw [if_pos (by decide)]
          have h0 := countSystem_filter_out s.messages
          simp only [countSystem] at h0
          simp [h0]
        refine ⟨hmsg, hprompt, hcount, ?_⟩
        intro er extra succActions hsucc hmsgs hextra
        have hlen : 0 < (pr.messages ++ extra).length := by
          rw [hmsg]
          simp
        rw [processPost_messages pr er s np succActions _ hmsgs hlen,
          countSystem_append, countSystem_of_no_system extra hextra, hcount]

/-- Shared state for the C6 witness: a stale system message followed by a
user message. -/
def wS6 : SharedState :=
  { messages := [⟨Role.system, "old"⟩, ⟨Role.user, "hi"⟩], flowId := some "f1" }

/-- The prep result the C6 witness computes. -/
def wPrep6 : ProcessNodePrepResult :=
  { nodeId := "p1", currentPrompt := "P", boundModel := "gpt"
    availableTools := []
    messages := [⟨Role.system, "P"⟩, ⟨Role.user, "hi"⟩] }

/-- The successful exec result committed in the C6 witness: the prepared
list extended by one assistant message. -/
def wExec6 : ProcessNodeExecResult :=
  { success := true, content := some "out"
    messages := some (wPrep6.messages ++ [⟨Role.assistant, "out"⟩]) }

/-- C6 witness: concrete prep over a history with a stale system message,
and the commit of its exec result. -/
theorem flujo_C6_witness :
    wPrep6.messages = ⟨Role.system, wPrep6.currentPrompt⟩ ::
      wS6.messages.filter (fun m => !(m.role = Role.system)) ∧
    wPrep6.currentPrompt =
      wCollab.renderPrompt (wS6.flowId.getD "")
        (((some wProcParams).map (fun p => p.id)).getD "")
        ⟨((some wProcParams).map (fun p => p.properties.excludeModelPrompt)).getD false,
         ((some wProcParams).map (fun p => p.properties.excludeStartNodePrompt)).getD false⟩ ∧
    countSystem wPrep6.messages = 1 ∧
    countSystem ((processPost wPrep6 wExec6 wS6 (some wProcParams)
        []).2.messages) = 1 := by
  have h := flujo_C6 wCollab wS6 (some wProcParams) wPrep6 rfl
  exact ⟨h.1, h.2.1, h.2.2.1,
    h.2.2.2 wExec6 [⟨Role.assistant, "out"⟩] [] rfl rfl (by decide)⟩

/-! Auxiliary lemmas about the converter's node map. -/

theorem getAction_nil (k : String) : getAction ([] : List (String × β)) k = none :=
  rfl

theorem getAction_cons (k0 : String) (v0 : β) (m : List (String × β))
    (k : String) :
    getAction ((k0, v0) :: m) k = if k0 = k then some v0 else getAction m k := by
  by_cases h : k0 = k <;> simp [getAction, List.find?, h]

theorem getAction_mapSet_self (m : List (String × β)) (k : String) (v : β) :
    getAction (mapSet m k v) k = some v := by
  induction m with
  | nil => simp [mapSet, getAction_cons]
  | cons p rest ih =>
    obtain ⟨k0, v0⟩ := p
    by_cases hk : k0 = k
    · subst hk
      simp [mapSet, getAction_cons]
    · simp [mapSet, hk, getAction_cons, ih]

theorem getAction_mapSet_ne (m : List (String × β)) (k k' : String) (v : β)
    (h : ¬ k = k') : getAction (mapSet m k v) k' = getAction m k' := by
  induction m with
  | nil => simp [mapSet, getAction_cons, getAction_nil, h]
  | cons p rest ih =>
    obtain ⟨k0, v0⟩ := p
    by_cases hk : k0 = k
    · subst hk
      simp [mapSet, getAction_cons, h]
    · by_cases hk' : k0 = k'
      · subst hk'
        simp [mapSet, hk, getAction_cons]
      · simp [mapSet, hk, hk', getAction_cons, ih]

theorem mapSet_pres_isSome (m : List (String × β)) (k k' : String) (v : β)
    (h : (getAction m k').isSome = true) :
    (getAction (mapSet m k v) k').isSome = true := by
  by_cases hk : k = k'
  · subst hk
    simp [getAction_mapSet_self]
  · rw [getAction_mapSet_ne m k k' v hk]
    exact h

/-- `buildNodesAux` preserves present keys and makes every processed
descriptor's id present. -/
theorem buildNodesAux_pres :
    ∀ (ns : List FlowNodeDesc) (m m' : List (String × BuiltNode)),
    buildNodesAux m ns = Except.ok m' →
    (∀ k, (getAction m k).isSome = true → (getAction m' k).isSome = true) ∧
    (∀ n ∈ ns, (getAction m' n.id).isSome = true) := by
  intro ns
  induction ns with
  | nil =>
    intro m m' h
    simp only [buildNodesAux, Except.ok.injEq] at h
    subst h
    exact ⟨fun k hk => hk, by simp⟩
  | cons n rest ih =>
    intro m m' h
    simp only [buildNodesAux] at h
    cases hcn : createNode n with
    | error e => simp [hcn] at h
    | ok bn =>
      simp only [hcn] at h
      obtain ⟨hpres, hmem⟩ := ih (mapSet m n.id bn) m' h
      constructor
      · intro k hk
        exact hpres k (mapSet_pres_isSome m n.id k bn hk)
      · intro n1 hn1
        rcases List.mem_cons.mp hn1 with h1 | h1
        · subst h1
          exact hpres n1.id (by simp [getAction_mapSet_self])
        · exact hmem n1 h1

/-- `wireEdges` preserves present keys. -/
theorem wireEdges_pres :
    ∀ (es : List EdgeDesc) (m m' : List (String × BuiltNode)),
    wireEdges m es = Except.ok m' →
    ∀ k, (getAction m k).isSome = true → (getAction m' k).isSome = true := by
  intro es
  induction es with
  | nil =>
    intro m m' h k hk
    simp only [wireEdges, Except.ok.injEq] at h
    subst h
    exact hk
  | cons e rest ih =>
    intro m m' h k hk
    simp only [wireEdges] at h
    cases hs : getAction m e.source with
    | none =>
      simp only [hs] at h
      exact ih m m' h k hk
    | some sn =>
      cases ht : getAction m e.target with
      | none =>
        simp only [hs, ht] at h
        exact ih m m' h k hk
      | some tn =>
        simp only [hs, ht] at h
        cases ha : addSuccessor sn.succ e.target
            (if e.id = "" then "default" else e.id) with
        | error err => simp [ha] at h
        | ok succ1 =>
          simp only [ha] at h
          exact ih _ m' h k (mapSet_pres_isSome m e.source k _ hk)

/-- C4 (amended): building with zero start-type nodes fails during
construction; with one or more start-type nodes construction does not fail
on that account — when node creation and edge wiring succeed, convert
returns the flow wrapping the **first** start-type descriptor in list
order. -/
theorem flujo_C4 (nodes : List FlowNodeDesc) (edges : List EdgeDesc)
    (n0 : FlowNodeDesc) (m0 m : List (String × BuiltNode)) :
    ((∀ n ∈ nodes, ¬(n.nodeType = "start")) →
      convertOk nodes edges = false) ∧
    (nodes.find? (fun n => n.nodeType = "start") = some n0 →
      buildNodes nodes = Except.ok m0 →
      wireEdges m0 edges = Except.ok m →
      convert nodes edges = Except.ok { start := n0.id, nodes := m }) := by
  constructor
  · intro hnostart
    simp only [convertOk, convert]
    cases hb : buildNodes nodes with
    | error e => simp [hb]
    | ok m0' =>
      simp only [hb]
      cases hw : wireEdges m0' edges with
      | error e => simp [hw]
      | ok m' =>
        simp only [hw]
        have hfind : nodes.find? (fun n => n.nodeType = "start") = none := by
          rw [List.find?_eq_none]
          intro n hn
          simp [hnostart n hn]
        simp [hfind]
  · intro hfind hbuild hwire
    have hn0mem : n0 ∈ nodes := List.mem_of_find?_eq_some hfind
    have hm0 : (getAction m0 n0.id).isSome = true :=
      (buildNodesAux_pres nodes [] m0 hbuild).2 n0 hn0mem
    have hm : (getAction m n0.id).isSome = true :=
      wireEdges_pres edges m0 m hwire n0.id hm0
    obtain ⟨b, hb⟩ := Option.isSome_iff_exists.mp hm
    simp only [convert, hbuild, hwire, hfind, hb]

/-- A graph description with two start-type nodes, for the C4
counterexample. -/
def wTwoStart : List FlowNodeDesc :=
  [{ id := "s1", label := "Start A", nodeType := "start" },
   { id := "s2", label := "Start B", nodeType := "start" }]

/-- C4 counterexample: the claim says a description with two or more
start-type nodes fails construction, but `convert` on two start nodes
succeeds (`nodes.find` just takes the first one). -/
theorem flujo_C4_counterexample : convertOk wTwoStart [] = true := by
  decide

/-- A graph description with no start-type node, for the C4 witness. -/
def wNoStart : List FlowNodeDesc :=
  [{ id := "a", label := "A", nodeType := "process" }]

/-- The node map built from `wTwoStart`. -/
def wTwoStartMap : List (String × BuiltNode) :=
  [("s1", { typeTag := "start"
            params := { id := "s1", label := some "Start A",
                        nodeType := "start" }
            succ := [] }),
   ("s2", { typeTag := "start"
            params := { id := "s2", label := some "Start B",
                        nodeType := "start" }
            succ := [] })]

/-- C4 witness: the zero-start description fails construction, and the
two-start description converts to a flow whose start is the first
start-type node `"s1"`. -/
theorem flujo_C4_witness :
    convertOk wNoStart [] = false ∧
    convert wTwoStart [] =
      Except.ok { start := "s1", nodes := wTwoStartMap } :=
  ⟨(flujo_C4 wNoStart []
      { id := "s1", label := "Start A", nodeType := "start" }
      wTwoStartMap wTwoStartMap).1 (by decide),
   (flujo_C4 wTwoStart []
      { id := "s1", label := "Start A", nodeType := "start" }
      wTwoStartMap wTwoStartMap).2 (by decide) rfl rfl⟩

/-- C3: `BaseNode.clone` deep-copies `flow_params` and `node_params` and
shallow-copies the successor map.  Hence, cloning a template twice and
then mutating any heap cell belonging to the first clone's params (every
cell reachable from them lies in that clone's fresh region) changes
neither the observable value of the second clone's params nor of the
template's params; both clones' successor maps hold exactly the
template's entries (shallow copy), and registering a new action on a
clone yields a map extending those shared entries while the template's
`successors` value is untouched. -/
theorem flujo_C3 (h0 : Heap) (t c1 c2 : NodeRecord) (h1 h2 : Heap)
    (fuel : Nat)
    (hwf : h0.ClosedBelowNext)
    (hfp : t.flowParams < h0.next) (hnp : t.nodeParams < h0.next)
    (hc1 : cloneNode h0 t fuel = some (c1, h1))
    (hc2 : cloneNode h1 t fuel = some (c2, h2))
    (r : Nat) (v : HVal) (hr1 : h0.next ≤ r) (hr2 : r < h1.next) :
    (∀ g : Nat,
      readVal g (h2.update r v) c2.flowParams = readVal g h2 c2.flowParams ∧
      readVal g (h2.update r v) c2.nodeParams = readVal g h2 c2.nodeParams ∧
      readVal g (h2.update r v) t.flowParams = readVal g h2 t.flowParams ∧
      readVal g (h2.update r v) t.nodeParams = readVal g h2 t.nodeParams) ∧
    c1.successors = t.successors ∧
    c2.successors = t.successors ∧
    (∀ (a : String) (nref : Nat), hasAction c1.successors a = false →
      addSuccessor c1.successors nref a =
        Except.ok (t.successors ++ [(a, nref)])) := by
  obtain ⟨⟨hext1, hfrc1⟩, hfp1, hnp1, hsucc1⟩ := cloneNode_spec h0 t fuel c1 h1 hc1
  obtain ⟨⟨hext2, hfrc2⟩, hfp2, hnp2, hsucc2⟩ := cloneNode_spec h1 t fuel c2 h2 hc2
  have hnext01 : h0.next ≤ h1.next := hext1.1
  have hnext12 : h1.next ≤ h2.next := hext2.1
  -- region of the template: cells below the original allocation counter
  have htemplate : ∀ g r0, r0 < h0.next →
      readVal g (h2.update r v) r0 = readVal g h2 r0 := by
    intro g r0 hr0
    have hagree : ∀ q, q < h0.next → (h2.update r v).mem q = h2.mem q :=
      update_agree_outside h2 r v (fun q => q < h0.next) (by omega)
    have hclosed : ∀ q, q < h0.next → ∀ w, h2.mem q = some w →
        ∀ x ∈ valRefs w, x < h0.next := by
      intro q hq w hw x hx
      have hmem1 : h1.mem q = some w := by
        rw [← hext2.2 q (by omega)]
        exact hw
      have hmem0 : h0.mem q = some w := by
        rw [← hext1.2 q hq]
        exact hmem1
      exact hwf q hq w hmem0 x hx
    exact ((readAgreeAll (fun q => q < h0.next) h2 (h2.update r v)
      hagree hclosed g).1 r0 hr0)
  -- region of the second clone: the fresh cells of the second cloneNode
  have hclone2 : ∀ g r0, h1.next ≤ r0 → r0 < h2.next →
      readVal g (h2.update r v) r0 = readVal g h2 r0 := by
    intro g r0 hr0a hr0b
    have hagree : ∀ q, (h1.next ≤ q ∧ q < h2.next) →
        (h2.update r v).mem q = h2.mem q :=
      update_agree_outside h2 r v (fun q => h1.next ≤ q ∧ q < h2.next)
        (by omega)
    have hclosed : ∀ q, (h1.next ≤ q ∧ q < h2.next) → ∀ w,
        h2.mem q = some w → ∀ x ∈ valRefs w, h1.next ≤ x ∧ x < h2.next := by
      intro q hq w hw x hx
      exact hfrc2 q hq.1 hq.2 w hw x hx
    exact ((readAgreeAll (fun q => h1.next ≤ q ∧ q < h2.next) h2
      (h2.update r v) hagree hclosed g).1 r0 ⟨hr0a, hr0b⟩)
  refine ⟨?_, hsucc1, hsucc2, ?_⟩
  · intro g
    exact ⟨hclone2 g c2.flowParams hfp2.1 hfp2.2,
      hclone2 g c2.nodeParams hnp2.1 hnp2.2,
      htemplate g t.flowParams hfp,
      htemplate g t.nodeParams hnp⟩
  · intro a nref hfree
    rw [hsucc1] at hfree ⊢
    simp [addSuccessor, hfree]

/-- Concrete heap for the C3 witness: a params object `{k: "v"}` in cell 0
pointing at the string cell 1. -/
def wHeap : Heap :=
  ⟨2, fun q =>
    if q = 0 then some (HVal.obj [("k", 1)])
    else if q = 1 then some (HVal.str "v")
    else none⟩

/-- Concrete template node for the C3 witness. -/
def wTemplate : NodeRecord := ⟨0, 1, [("e1", 7)]⟩

/-- Fallback pair for reading off the witness clones. -/
def wCloneDummy : NodeRecord × Heap := (⟨0, 0, []⟩, wHeap)

/-- First clone of the witness template. -/
def wClone1 : NodeRecord × Heap :=
  (cloneNode wHeap wTemplate 3).getD wCloneDummy

/-- Second clone of the witness template. -/
def wClone2 : NodeRecord × Heap :=
  (cloneNode wClone1.2 wTemplate 3).getD wCloneDummy

theorem wHeap_closed : wHeap.ClosedBelowNext := by
  intro q hq v hv x hx
  have hnext : wHeap.next = 2 := rfl
  have hq2 : q = 0 ∨ q = 1 := by omega
  rcases hq2 with h | h
  · subst h
    have h1 : wHeap.mem 0 = some (HVal.obj [("k", 1)]) := rfl
    rw [h1, Option.some.injEq] at hv
    subst hv
    have hx1 : x = 1 := by simpa [valRefs] using hx
    omega
  · subst h
    have h1 : wHeap.mem 1 = some (HVal.str "v") := rfl
    rw [h1, Option.some.injEq] at hv
    subst hv
    exact absurd hx (by simp [valRefs])

/-- C3 witness: cloning the `{k: "v"}` template twice and overwriting a
cell of the first clone's region leaves the second clone's and the
template's observable params unchanged, with the successor maps shared and
extendable independently. -/
theorem flujo_C3_witness :
    (∀ g : Nat,
      readVal g (wClone2.2.update 2 HVal.null) wClone2.1.flowParams =
        readVal g wClone2.2 wClone2.1.flowParams ∧
      readVal g (wClone2.2.update 2 HVal.null) wClone2.1.nodeParams =
        readVal g wClone2.2 wClone2.1.nodeParams ∧
      readVal g (wClone2.2.update 2 HVal.null) wTemplate.flowParams =
        readVal g wClone2.2 wTemplate.flowParams ∧
      readVal g (wClone2.2.update 2 HVal.null) wTemplate.nodeParams =
        readVal g wClone2.2 wTemplate.nodeParams) ∧
    wClone1.1.successors = wTemplate.successors ∧
    wClone2.1.successors = wTemplate.successors ∧
    (∀ (a : String) (nref : Nat), hasAction wClone1.1.successors a = false →
      addSuccessor wClone1.1.successors nref a =
        Except.ok (wTemplate.successors ++ [(a, nref)])) :=
  flujo_C3 wHeap wTemplate wClone1.1 wClone2.1 wClone1.2 wClone2.2 3
    wHeap_closed (by decide) (by decide) rfl rfl 2 HVal.null
    (by decide) (by decide)

/-- C8: a Flow used as a node behaves uniformly — `Flow.post` returns the
single default action `"default"` for every input, and `Flow.execCore`
raises an error for every input (direct execution of a Flow is a contract
violation, never a silent no-op). -/
theorem flujo_C8 (prep1 : α) (exec1 : β) (s : SharedState) (np : Option γ)
    (prep2 : δ) :
    flowPost prep1 exec1 s np = DEFAULT_ACTION ∧
    DEFAULT_ACTION = "default" ∧
    (flowExecCore prep2 : Except String ε) =
      Except.error "Flow node does not support direct execution" :=
  ⟨rfl, rfl, rfl⟩

/-- C9: registering a successor under an action name already present on
the node raises an error and leaves the successor map unchanged;
registering under a fresh action name succeeds and appends exactly that
one entry. -/
theorem flujo_C9 (nd : SuccNode α) (n : α) (a : String) :
    (hasAction nd.successors a = true →
      addSuccessorNode nd n a =
        (nd, some ("Action " ++ a ++ " already exists"))) ∧
    (hasAction nd.successors a = false →
      addSuccessorNode nd n a = (⟨nd.successors ++ [(a, n)]⟩, none)) := by
  constructor
  · intro h
    simp [addSuccessorNode, addSuccessor, h]
  · intro h
    simp [addSuccessorNode, addSuccessor, h]

/-- C9 witness: on the node with successor map `[("x", 1)]`, re-registering
`"x"` errors with the map untouched, while registering `"y"` appends the
single new entry. -/
theorem flujo_C9_witness :
    (hasAction ([("x", (1 : Nat))]) "x" = true ∧
      addSuccessorNode ⟨[("x", (1 : Nat))]⟩ 2 "x" =
        (⟨[("x", 1)]⟩, some ("Action " ++ "x" ++ " already exists"))) ∧
    (hasAction ([("x", (1 : Nat))]) "y" = false ∧
      addSuccessorNode ⟨[("x", (1 : Nat))]⟩ 2 "y" =
        (⟨[("x", 1), ("y", 2)]⟩, none)) :=
  ⟨⟨by decide, (flujo_C9 ⟨[("x", 1)]⟩ 2 "x").1 (by decide)⟩,
   ⟨by decide, (flujo_C9 ⟨[("x", 1)]⟩ 2 "y").2 (by decide)⟩⟩

/-- C5: `ProcessNode.post` filters the MCP (tool-binding) action keys out
of the node's successor keys and returns the first remaining key in the
map's insertion order, falling back to the universal `"default"` action
when no normal key remains. -/
theorem flujo_C5 (prepResult : ProcessNodePrepResult)
    (execResult : ProcessNodeExecResult) (s : SharedState)
    (np : Option NodeParams) (succActions : List String) :
    (processPost prepResult execResult s np succActions).1 =
      (succActions.find? (fun a => !isMcpAction a)).getD "default" := by
  simp only [processPost]
  exact filter_head_eq_find (fun a => !isMcpAction a) succActions "default"

/-- C10: when `ProcessNode.execute` returns a recoverable failure result
(`success: false`, hence no updated message list), `post` stores the
structured failure object as `lastResponse`, leaves `messages` unchanged,
and still appends a `ProcessNode` tracker entry. -/
theorem flujo_C10 (prepResult : ProcessNodePrepResult)
    (execResult : ProcessNodeExecResult) (s : SharedState)
    (np : Option NodeParams) (succActions : List String)
    (hfail : execResult.success = false)
    (hmsgs : execResult.messages = none ∨ execResult.messages = some []) :
    (processPost prepResult execResult s np succActions).2.lastResponse =
      some (LastResponse.failure execResult.error
        execResult.errorDetailsMessage) ∧
    (processPost prepResult execResult s np succActions).2.messages =
      s.messages ∧
    ∃ e : TrackerEntry,
      (processPost prepResult execResult s np succActions).2.nodeExecutionTracker =
        s.nodeExecutionTracker ++ [e] ∧ e.nodeType = "ProcessNode" := by
  simp only [processPost, hfail, Bool.not_false, if_pos]
  rcases hmsgs with hm | hm <;>
    simp [hm]

/-- C10 witness: a concrete recoverable failure result against a one-message
state. -/
theorem flujo_C10_witness :
    ({ success := false, error := some "boom",
       errorDetailsMessage := some "boom" } : ProcessNodeExecResult).success
        = false ∧
    (processPost
        { nodeId := "p", currentPrompt := "P", boundModel := "m",
          availableTools := [], messages := [] }
        { success := false, error := some "boom", errorDetailsMessage := some "boom" }
        { messages := [⟨Role.user, "hi"⟩] } (some { id := "p", nodeType := "process" })
        []).2.lastResponse =
      some (LastResponse.failure (some "boom") (some "boom")) ∧
    (processPost
        { nodeId := "p", currentPrompt := "P", boundModel := "m",
          availableTools := [], messages := [] }
        { success := false, error := some "boom", errorDetailsMessage := some "boom" }
        { messages := [⟨Role.user, "hi"⟩] } (some { id := "p", nodeType := "process" })
        []).2.messages = [⟨Role.user, "hi"⟩] ∧
    ∃ e : TrackerEntry,
      (processPost
          { nodeId := "p", currentPrompt := "P", boundModel := "m",
            availableTools := [], messages := [] }
          { success := false, error := some "boom", errorDetailsMessage := some "boom" }
          { messages := [⟨Role.user, "hi"⟩] } (some { id := "p", nodeType := "process" })
          []).2.nodeExecutionTracker = [] ++ [e] ∧ e.nodeType = "ProcessNode" := by
  refine ⟨rfl, ?_⟩
  have := flujo_C10
    { nodeId := "p", currentPrompt := "P", boundModel := "m",
      availableTools := [], messages := [] }
    { success := false, error := some "boom", errorDetailsMessage := some "boom" }
    { messages := [⟨Role.user, "hi"⟩] } (some { id := "p", nodeType := "process" })
    [] rfl (Or.inl rfl)
  exact this

end Flujo
